import Mathlib

/-!
# Verification of the SicilyChessBot decision pipeline

Shallow embedding of the decision pipeline of `sicily.py` and `test.py`:
orientation inference (`detect_board_orientation`), FEN flipping (`flip_fen`),
the FEN repair cascade, the engine-query/restart orchestration inside
`test_move_generation`, evaluation display normalization, and the
square-to-pixel geometry mapping (`square_to_coordinates`).

External engine calls (the `stockfish` Python package) are modelled by an
oracle record `Engine`; a call that may raise a Python exception is modelled
with `Option`/`Bool` results (`none`/`false` standing for a raised exception).
Each pipeline run additionally produces the ordered list of engine events it
issued, so that call counts and call ordering are provable facts.
-/

namespace SicilyBot

/-! ## Python string split/join on the rank separator

`splitSlash` models Python `s.split('/')` (empty pieces preserved, the empty
string splitting to one empty piece); `joinSlash` models `'/'.join(ranks)`.
-/

def splitSlash : List Char → List (List Char)
  | [] => [[]]
  | c :: cs =>
    if c = '/' then [] :: splitSlash cs
    else
      match splitSlash cs with
      | [] => [[c]]
      | r :: rs => (c :: r) :: rs

def joinSlash : List (List Char) → List Char
  | [] => []
  | [r] => r
  | r :: s :: rs => r ++ '/' :: joinSlash (s :: rs)

/-- sicily.py 156-161: iterate the ranks in reversed order, reversing each
rank string horizontally. -/
def flipRanks (ranks : List (List Char)) : List (List Char) :=
  ranks.reverse.map List.reverse

/-- sicily.py 144-164, `flip_fen`: split on the rank separator, reverse the
rank order and each rank string, and join back.  (The `except` branch of the
source is unreachable: none of these operations raises.) -/
def flip_fen (fen : String) : String :=
  String.mk (joinSlash (flipRanks (splitSlash fen.data)))

/-- sicily.py 106-142, `detect_board_orientation`: inspect the last
rank-string; compare its upper-case and lower-case letter counts, with a
lower-case r/k/q tie-break.  (The source also counts the letters of the top
rank but never uses those counts; the `except` branch is unreachable since
splitting and indexing the nonempty split result cannot fail.) -/
def detect_board_orientation (fen : String) : String × String :=
  let ranks := splitSlash fen.data
  let bottom_rank := ranks.getLastD []
  let bottom_white := bottom_rank.countP fun c => c.isUpper && c.isAlpha
  let bottom_black := bottom_rank.countP fun c => c.isLower && c.isAlpha
  if bottom_black < bottom_white then ("normal", "w")
  else if bottom_white < bottom_black then ("flipped", "b")
  else if bottom_rank.contains 'r' || bottom_rank.contains 'k'
      || bottom_rank.contains 'q' then ("flipped", "b")
  else ("normal", "w")

/-- The bottom rank-string of a placement (last piece of the split). -/
def bottomRank (fen : String) : List Char := (splitSlash fen.data).getLastD []

/-- Count of White pieces (uppercase letters) in a rank-string. -/
def countWhite (r : List Char) : Nat := r.countP fun c => c.isUpper && c.isAlpha

/-- Count of Black pieces (lowercase letters) in a rank-string. -/
def countBlack (r : List Char) : Nat := r.countP fun c => c.isLower && c.isAlpha

/-- Does a rank-string contain a lowercase rook, king or queen letter? -/
def hasBlackMajor (r : List Char) : Bool :=
  r.contains 'r' || r.contains 'k' || r.contains 'q'

/-- Well-formedness of a piece placement as the spec states it: exactly 8
ranks, each expanding (digits count as that many empty squares, letters as
one square) to exactly 8 squares. -/
def wellFormedPlacement (fen : String) : Bool :=
  let ranks := splitSlash fen.data
  ranks.length == 8 &&
    ranks.all fun r =>
      (r.map fun c => if c.isDigit then c.toNat - '0'.toNat else 1).sum == 8

/-! ## Move geometry (test.py `square_to_coordinates`) -/

/-- Python `int(c)` on a one-character string: the digit value, or a raised
`ValueError` (modelled as `none`) when the character is not a digit. -/
def pyIntChar (c : Char) : Option Int :=
  if c.isDigit then some ((c.toNat : Int) - ('0'.toNat : Int)) else none

/-- Python `int(x)` on a real number: truncation toward zero. -/
def pyTrunc (q : ℚ) : Int := q.num.tdiv q.den

/-- test.py 17-46, `square_to_coordinates`: wrong length yields `None`;
otherwise file/rank indices are derived (no range check) and the square
center is computed; a non-digit rank character raises `ValueError`
(modelled as `Except.error`). -/
def square_to_coordinates (square : String) (corners : ℚ × ℚ × ℚ × ℚ) :
    Except String (Option (Int × Int)) :=
  match square.data with
  | [c0, c1] =>
    let file : Int := (c0.toNat : Int) - ('a'.toNat : Int)
    match pyIntChar c1 with
    | none => .error "ValueError"
    | some d =>
      let rank : Int := d - 1
      let (x0, y0, x1, y1) := corners
      let board_width := x1 - x0
      let board_height := y1 - y0
      let square_width := board_width / 8
      let square_height := board_height / 8
      let x := x0 + ((file : ℚ) + 1/2) * square_width
      let y := y1 - ((rank : ℚ) + 1/2) * square_height
      .ok (some (pyTrunc x, pyTrunc y))
  | _ => .ok none

/-! ## Engine evaluation data -/

/-- The `value` slot of an engine evaluation dictionary: an integer score or
a string (the placeholder uses the string value `N/A`). -/
inductive EvalVal
  | num (n : Int)
  | str (s : String)
deriving DecidableEq

/-- An engine evaluation: a Python dict with `type` and `value` keys, or a
non-dict value (which the display code passes through untouched). -/
inductive Eval
  | dict (etype : String) (value : Option EvalVal)
  | nondict (tag : String)
deriving DecidableEq

/-- One entry of the ranked top-moves list returned by the engine.
Modelled from the spec: ranked entries carry the move plus optional
centipawnScore and mateDistance (spec section 3, MoveResult); the external
stockfish package returns dicts with `Move`, `Centipawn` and `Mate` keys, of
which the source reads only `Move` and `Centipawn`. -/
structure MoveData where
  move : String
  centipawn : Option Int
  mate : Option Int
deriving DecidableEq

/-- Python negation of an evaluation value: raises `TypeError` (modelled as
`none`) on a string. -/
def pyNegVal : EvalVal → Option EvalVal
  | .num n => some (.num (-n))
  | .str _ => none

/-- Negation step shared by the `cp` and `mate` branches of
sicily.py 427-430: negate the stored value in place. -/
def negateValue (etype : String) (value : Option EvalVal) : Except String Eval :=
  match value with
  | some v =>
    match pyNegVal v with
    | some v2 => .ok (.dict etype (some v2))
    | none => .error "TypeError"
  | none => .ok (.dict etype none)

/-- sicily.py 424-430: copy the evaluation and, when the active player is
black and the evaluation is a dict of type `cp` or `mate` with a non-null
value, negate that value; everything else passes through unchanged. -/
def flipDisplayEval (active : String) (ev : Eval) : Except String Eval :=
  match ev with
  | .nondict t => .ok (.nondict t)
  | .dict etype value =>
    if active == "b" then
      if etype == "cp" && value.isSome then negateValue etype value
      else if etype == "mate" && value.isSome then negateValue etype value
      else .ok (.dict etype value)
    else .ok (.dict etype value)

/-- sicily.py 436-440: the displayed data for one ranked entry — the move
and its centipawn score, the latter negated when the active player is black
and the score is not null.  The `Mate` slot of the entry is never read. -/
def displayTopMove (active : String) (md : MoveData) : String × Option Int :=
  let centipawn := md.centipawn
  let centipawn :=
    if active == "b" && centipawn.isSome then centipawn.map (fun n => -n)
    else centipawn
  (md.move, centipawn)

/-! ## The engine oracle and its event log -/

/-- Oracle for one live engine session.  A `none`/`false` result models a
raised Python exception in the corresponding `stockfish` call. -/
structure Engine where
  is_fen_valid : String → Option Bool
  set_fen_position : String → Bool
  get_top_moves : Nat → Option (List MoveData)
  get_best_move : Option (Option String)
  get_evaluation : Option Eval

/-- One external engine interaction, with its outcome. -/
inductive EngEvent
  | validCall (fen : String) (res : Option Bool)
  | setCall (fen : String) (ok : Bool)
  | topCall (n : Nat) (res : Option (List MoveData))
  | bestCall (res : Option (Option String))
  | evalCall (res : Option Eval)
  | reinit (ok : Bool)
deriving DecidableEq

/-- Number of engine-restart attempts (`init_stockfish` re-invocations)
recorded in a trace. -/
def countReinit (tr : List EngEvent) : Nat :=
  tr.countP fun ev => match ev with | .reinit _ => true | _ => false

/-- Number of `get_best_move` calls recorded in a trace. -/
def countBestCalls (tr : List EngEvent) : Nat :=
  tr.countP fun ev => match ev with | .bestCall _ => true | _ => false

/-- Number of `get_evaluation` calls recorded in a trace. -/
def countEvalCalls (tr : List EngEvent) : Nat :=
  tr.countP fun ev => match ev with | .evalCall _ => true | _ => false

/-- Number of validator (`is_fen_valid`) calls recorded in a trace. -/
def countValidCalls (tr : List EngEvent) : Nat :=
  tr.countP fun ev => match ev with | .validCall _ _ => true | _ => false

/-- Has some earlier event accepted this exact FEN
(an `is_fen_valid` call that returned `True`)? -/
def acceptedBefore (seen : List EngEvent) (f : String) : Bool :=
  seen.any fun ev => ev == .validCall f (some true)

/-- Walk a trace front to back, requiring every `set_fen_position` call to be
preceded by an accepting validity check of the same FEN. -/
def checkSets : List EngEvent → List EngEvent → Bool
  | _, [] => true
  | seen, .setCall f ok :: rest =>
    acceptedBefore seen f && checkSets (.setCall f ok :: seen) rest
  | seen, ev :: rest => checkSets (ev :: seen) rest

/-- The temporal property of claim C2 on a trace: no position is set before
that same FEN string has been accepted by `is_fen_valid`. -/
def validatedBeforeSet (tr : List EngEvent) : Bool := checkSets [] tr

/-- The canonical starting position used as liveness probe (sicily.py 368). -/
def startFenStr : String := "rnbqkbnr/pppppppp/8/8/8/8/PPPPPPPP/RNBQKBNR w KQkq - 0 1"

/-- The sample placement both scripts fall back to (sicily.py 325). -/
def samplePlacement : String := "rnbqkbnr/pppppppp/8/8/4P3/8/PPPP1PPP/RNBQKBNR"

/-! ## The FEN repair cascade (sicily.py 341-360) as its own component

The spec (section 4.2) gives it a pure boolean validator; the second
component of the result is the ordered list of FEN strings submitted to the
validator. -/

/-- Result of the repair cascade: an accepted full FEN together with the
final active color, or a failure carrying the bare placement
(sicily.py 360 returns `short_fen` without any game-state suffix). -/
inductive RepairOut
  | accepted (fullFen : String) (active : String)
  | failure (placement : String)
deriving DecidableEq

/-- The first repair candidate (sicily.py 315): full castling rights, no en
passant, zeroed clocks. -/
def candidateFull (p a : String) : String := p ++ " " ++ a ++ " KQkq - 0 1"

/-- The reduced repair candidate (sicily.py 346): empty castling token. -/
def candidateNoCastle (p a : String) : String := p ++ " " ++ a ++ " - - 0 1"

/-- The opposite active color (sicily.py 352). -/
def oppositeColor (a : String) : String := if a == "w" then "b" else "w"

/-- sicily.py 341-360: try full castling rights first, then no castling
rights, then the opposite active color with no castling rights; fail with
the bare placement if the validator rejects all three. -/
def repair (shortFen active : String) (validate : String → Bool) :
    RepairOut × List String :=
  let fullFen := shortFen ++ " " ++ active ++ " KQkq - 0 1"
  if validate fullFen then (.accepted fullFen active, [fullFen])
  else
    let simplifiedFen := shortFen ++ " " ++ active ++ " - - 0 1"
    if validate simplifiedFen then
      (.accepted simplifiedFen active, [fullFen, simplifiedFen])
    else
      let opp := if active == "w" then "b" else "w"
      let oppFen := shortFen ++ " " ++ opp ++ " - - 0 1"
      if validate oppFen then
        (.accepted oppFen opp, [fullFen, simplifiedFen, oppFen])
      else (.failure shortFen, [fullFen, simplifiedFen, oppFen])

/-! ## sicily.py `test_move_generation`, engine section (lines 337-446)

The interpreter starts right after `full_fen` is assembled (line 315), with
the raw predictor FEN (`rawFen`), the shortened placement (`shortFen`) and
the detected active player already in hand.  `re` is the engine that a
restart (`init_stockfish`, line 383) would produce, `none` if that
construction fails. -/

/-- Outcome of one `test_move_generation` run (the returned triple, with the
displayed evaluation data carried along on the full success path). -/
inductive MGOut
  | fail (retFen : String)
  | okBest (retFen : String) (bestMove : String)
  | okFull (retFen : String) (bestMove : String) (dispEval : Eval)
      (ranked : List (String × Option Int))
deriving DecidableEq

namespace SicilyPy

/-- sicily.py 415-442: fetch the evaluation (placeholder on a raised call),
flip it and the ranked list for display, and return success.  A `TypeError`
raised while negating a non-numeric score lands in the outer handler at
line 444. -/
def evalStage (rawFen shortFen active : String) (e : Engine) (best : String)
    (tm : List MoveData) : MGOut × List EngEvent :=
  let evPair :=
    match e.get_evaluation with
    | some x => (x, EngEvent.evalCall (some x))
    | none => (Eval.dict "unknown" (some (.str "N/A")), EngEvent.evalCall none)
  match flipDisplayEval active evPair.1 with
  | .ok disp =>
    (.okFull shortFen best disp (tm.map (displayTopMove active)), [evPair.2])
  | .error _ => (.fail rawFen, [evPair.2])

/-- sicily.py 408-442: an empty ranked list fails immediately, otherwise the
best move is the first entry. -/
def topStage (rawFen shortFen active : String) (e : Engine)
    (tm : List MoveData) : MGOut × List EngEvent :=
  match tm with
  | [] => (.fail rawFen, [])
  | md :: rest => evalStage rawFen shortFen active e md.move (md :: rest)

/-- sicily.py 395-406: the single best-move fallback after the restarted
ranked request failed.  Python truthiness of the returned move string is
modelled exactly (an empty string is falsy). -/
def bestFallback (rawFen shortFen : String) (e2 : Engine) :
    MGOut × List EngEvent :=
  match e2.get_best_move with
  | none => (.fail rawFen, [.bestCall none])
  | some none => (.fail rawFen, [.bestCall (some none)])
  | some (some mv) =>
    if mv == "" then (.fail rawFen, [.bestCall (some (some mv))])
    else (.okBest shortFen mv, [.bestCall (some (some mv))])

/-- sicily.py 378-406: the restart cycle after `get_top_moves` raised —
reinitialize, re-set the position, retry the ranked request once, and fall
back to a single best-move request if that retry fails. -/
def restartStage (rawFen shortFen active fullFen : String)
    (re : Option Engine) : MGOut × List EngEvent :=
  match re with
  | none => (.fail rawFen, [.reinit false])
  | some e2 =>
    if e2.set_fen_position fullFen then
      match e2.get_top_moves 3 with
      | some tm =>
        let step := topStage rawFen shortFen active e2 tm
        (step.1,
          [.reinit true, .setCall fullFen true, .topCall 3 (some tm)] ++ step.2)
      | none =>
        let step := bestFallback rawFen shortFen e2
        (step.1, [.reinit true, .setCall fullFen true, .topCall 3 none] ++ step.2)
    else
      let step := bestFallback rawFen shortFen e2
      (step.1, [.reinit true, .setCall fullFen false] ++ step.2)

/-- sicily.py 363-442: set the validated position, probe liveness against
the canonical starting position, request the ranked top moves, and enter the
restart cycle if that request raises. -/
def queryStage (rawFen shortFen active fullFen : String) (e : Engine)
    (re : Option Engine) : MGOut × List EngEvent :=
  if e.set_fen_position fullFen then
    match e.is_fen_valid startFenStr with
    | some true =>
      match e.get_top_moves 3 with
      | some tm =>
        let step := topStage rawFen shortFen active e tm
        (step.1,
          [.setCall fullFen true, .validCall startFenStr (some true),
            .topCall 3 (some tm)] ++ step.2)
      | none =>
        let step := restartStage rawFen shortFen active fullFen re
        (step.1,
          [.setCall fullFen true, .validCall startFenStr (some true),
            .topCall 3 none] ++ step.2)
    | some false =>
      (.fail rawFen, [.setCall fullFen true, .validCall startFenStr (some false)])
    | none =>
      (.fail rawFen, [.setCall fullFen true, .validCall startFenStr none])
  else (.fail rawFen, [.setCall fullFen false])

/-- sicily.py 337-446: the engine section of `test_move_generation` — the
repair cascade (validity established before any position is set), then the
query stages.  A raised `is_fen_valid` lands in the outer handler (line 444)
and returns the raw FEN with no move. -/
def test_move_generation (rawFen shortFen active : String) (e : Engine)
    (re : Option Engine) : MGOut × List EngEvent :=
  let fullFen := shortFen ++ " " ++ active ++ " KQkq - 0 1"
  match e.is_fen_valid fullFen with
  | none => (.fail rawFen, [.validCall fullFen none])
  | some true =>
    let step := queryStage rawFen shortFen active fullFen e re
    (step.1, [.validCall fullFen (some true)] ++ step.2)
  | some false =>
    let simplifiedFen := shortFen ++ " " ++ active ++ " - - 0 1"
    match e.is_fen_valid simplifiedFen with
    | none =>
      (.fail rawFen,
        [.validCall fullFen (some false), .validCall simplifiedFen none])
    | some true =>
      let step := queryStage rawFen shortFen active simplifiedFen e re
      (step.1,
        [.validCall fullFen (some false),
          .validCall simplifiedFen (some true)] ++ step.2)
    | some false =>
      let opp := if active == "w" then "b" else "w"
      let oppFen := shortFen ++ " " ++ opp ++ " - - 0 1"
      match e.is_fen_valid oppFen with
      | none =>
        (.fail rawFen,
          [.validCall fullFen (some false), .validCall simplifiedFen (some false),
            .validCall oppFen none])
      | some true =>
        let step := queryStage rawFen shortFen opp oppFen e re
        (step.1,
          [.validCall fullFen (some false), .validCall simplifiedFen (some false),
            .validCall oppFen (some true)] ++ step.2)
      | some false =>
        (.fail shortFen,
          [.validCall fullFen (some false), .validCall simplifiedFen (some false),
            .validCall oppFen (some false)])

end SicilyPy

/-! ## test.py `test_move_generation`, engine section (lines 256-304) -/

namespace TestPy

/-- test.py 282-300: once a FEN is deemed usable, request the best move, the
evaluation and the ranked list; any raised call lands in the outer handler
(line 302). -/
def afterValid (rawFen shortFen : String) (e : Engine) :
    MGOut × List EngEvent :=
  match e.get_best_move with
  | none => (.fail rawFen, [.bestCall none])
  | some none => (.fail rawFen, [.bestCall (some none)])
  | some (some mv) =>
    match e.get_evaluation with
    | none => (.fail rawFen, [.bestCall (some (some mv)), .evalCall none])
    | some ev =>
      match e.get_top_moves 3 with
      | none =>
        (.fail rawFen,
          [.bestCall (some (some mv)), .evalCall (some ev), .topCall 3 none])
      | some tm =>
        (.okBest shortFen mv,
          [.bestCall (some (some mv)), .evalCall (some ev),
            .topCall 3 (some tm)])

/-- test.py 256-304: the engine section of `test_move_generation`.  The
position is set (line 260) BEFORE the validity check (line 263); the repair
cascade that follows never re-sets the position. -/
def test_move_generation (rawFen shortFen : String) (e : Engine) :
    MGOut × List EngEvent :=
  let fullFen := shortFen ++ " w KQkq - 0 1"
  if e.set_fen_position fullFen then
    match e.is_fen_valid fullFen with
    | none => (.fail rawFen, [.setCall fullFen true, .validCall fullFen none])
    | some true =>
      let step := afterValid rawFen shortFen e
      (step.1, [.setCall fullFen true, .validCall fullFen (some true)] ++ step.2)
    | some false =>
      let simplifiedFen := shortFen ++ " w - - 0 1"
      match e.is_fen_valid simplifiedFen with
      | none =>
        (.fail rawFen,
          [.setCall fullFen true, .validCall fullFen (some false),
            .validCall simplifiedFen none])
      | some true =>
        let step := afterValid rawFen shortFen e
        (step.1,
          [.setCall fullFen true, .validCall fullFen (some false),
            .validCall simplifiedFen (some true)] ++ step.2)
      | some false =>
        let blackFen := shortFen ++ " b - - 0 1"
        match e.is_fen_valid blackFen with
        | none =>
          (.fail rawFen,
            [.setCall fullFen true, .validCall fullFen (some false),
              .validCall simplifiedFen (some false), .validCall blackFen none])
        | some true =>
          let step := afterValid rawFen shortFen e
          (step.1,
            [.setCall fullFen true, .validCall fullFen (some false),
              .validCall simplifiedFen (some false),
              .validCall blackFen (some true)] ++ step.2)
        | some false =>
          (.fail shortFen,
            [.setCall fullFen true, .validCall fullFen (some false),
              .validCall simplifiedFen (some false),
              .validCall blackFen (some false)])
  else (.fail rawFen, [.setCall fullFen false])

end TestPy

/-! ## Concrete engine oracles used as test inputs -/

/-- An engine on which every call succeeds. -/
def okEngine : Engine where
  is_fen_valid := fun _ => some true
  set_fen_position := fun _ => true
  get_top_moves := fun _ => some [⟨"e2e4", some 30, none⟩]
  get_best_move := some (some "e2e4")
  get_evaluation := some (.dict "cp" (some (.num 30)))

/-- An engine on which every call raises. -/
def deadEngine : Engine where
  is_fen_valid := fun _ => none
  set_fen_position := fun _ => false
  get_top_moves := fun _ => none
  get_best_move := none
  get_evaluation := none

/-- An engine whose validity checks and position setting succeed but whose
move requests all raise. -/
def failMovesEngine : Engine where
  is_fen_valid := fun _ => some true
  set_fen_position := fun _ => true
  get_top_moves := fun _ => none
  get_best_move := none
  get_evaluation := none

/-- An engine that answers the ranked request successfully with an empty
list. -/
def emptyTopEngine : Engine where
  is_fen_valid := fun _ => some true
  set_fen_position := fun _ => true
  get_top_moves := fun _ => some []
  get_best_move := some (some "e2e4")
  get_evaluation := some (.dict "cp" (some (.num 30)))

/-- An engine that produces a ranked list but raises on `get_evaluation`. -/
def noEvalEngine : Engine where
  is_fen_valid := fun _ => some true
  set_fen_position := fun _ => true
  get_top_moves := fun _ => some [⟨"e7e5", some (-12), none⟩, ⟨"g8f6", none, some 2⟩]
  get_best_move := some (some "e7e5")
  get_evaluation := none

/-! ## Helper lemmas on the split/join pair -/

theorem splitSlash_ne_nil (l : List Char) : splitSlash l ≠ [] := by
  cases l with
  | nil => simp [splitSlash]
  | cons c cs =>
    simp only [splitSlash]
    split
    · simp
    · split <;> simp

theorem joinSlash_splitSlash (l : List Char) : joinSlash (splitSlash l) = l := by
  induction l with
  | nil => rfl
  | cons c cs ih =>
    obtain ⟨r, rs, hrs⟩ := List.exists_cons_of_ne_nil (splitSlash_ne_nil cs)
    rw [hrs] at ih
    by_cases hc : c = '/'
    · subst hc
      simp only [splitSlash, if_pos rfl, hrs]
      show [] ++ '/' :: joinSlash (r :: rs) = '/' :: cs
      rw [List.nil_append, ih]
    · simp only [splitSlash, if_neg hc, hrs]
      cases rs with
      | nil =>
        show c :: r = c :: cs
        rw [show joinSlash [r] = r from rfl] at ih
        rw [ih]
      | cons s rs2 =>
        show (c :: r) ++ '/' :: joinSlash (s :: rs2) = c :: cs
        rw [List.cons_append]
        rw [show joinSlash (r :: s :: rs2) = r ++ '/' :: joinSlash (s :: rs2) from rfl] at ih
        rw [ih]

theorem noslash_of_mem_splitSlash (l : List Char) :
    ∀ r ∈ splitSlash l, '/' ∉ r := by
  induction l with
  | nil =>
    intro r hr
    simp only [splitSlash, List.mem_singleton] at hr
    subst hr
    simp
  | cons c cs ih =>
    intro r hr
    obtain ⟨s, rs, hrs⟩ := List.exists_cons_of_ne_nil (splitSlash_ne_nil cs)
    by_cases hc : c = '/'
    · subst hc
      simp [splitSlash] at hr
      rcases hr with h0 | hr
      · subst h0; simp
      · exact ih r hr
    · simp [splitSlash, hc, hrs] at hr
      rcases hr with h0 | hr
      · subst h0
        intro hmem
        rcases List.mem_cons.mp hmem with h1 | h2
        · exact hc h1.symm
        · exact ih s (by rw [hrs]; exact List.mem_cons_self s rs) h2
      · exact ih r (by rw [hrs]; exact List.mem_cons_of_mem s hr)

theorem splitSlash_eq_of_noslash (r : List Char) (h : '/' ∉ r) :
    splitSlash r = [r] := by
  induction r with
  | nil => rfl
  | cons c cs ih =>
    have hc : c ≠ '/' := by
      intro hcc
      exact h (by rw [hcc]; exact List.mem_cons_self '/' cs)
    have hcs : '/' ∉ cs := fun hm => h (List.mem_cons_of_mem c hm)
    simp [splitSlash, if_neg hc, ih hcs]

theorem splitSlash_append (r t : List Char) (h : '/' ∉ r) :
    splitSlash (r ++ '/' :: t) = r :: splitSlash t := by
  induction r with
  | nil => simp [splitSlash]
  | cons c cs ih =>
    have hc : c ≠ '/' := by
      intro hcc
      exact h (by rw [hcc]; exact List.mem_cons_self '/' cs)
    have hcs : '/' ∉ cs := fun hm => h (List.mem_cons_of_mem c hm)
    simp only [List.cons_append, splitSlash, if_neg hc]
    have ih2 : splitSlash (cs.append ('/' :: t)) = cs :: splitSlash t := ih hcs
    rw [ih2]

theorem splitSlash_joinSlash (l : List (List Char)) (hne : l ≠ [])
    (hs : ∀ s ∈ l, '/' ∉ s) : splitSlash (joinSlash l) = l := by
  induction l with
  | nil => exact absurd rfl hne
  | cons r rs ih =>
    cases rs with
    | nil => exact splitSlash_eq_of_noslash r (hs r (List.mem_cons_self r []))
    | cons s rs2 =>
      show splitSlash (r ++ '/' :: joinSlash (s :: rs2)) = r :: s :: rs2
      rw [splitSlash_append r _ (hs r (List.mem_cons_self r (s :: rs2)))]
      rw [ih (by simp) (fun x hx => hs x (List.mem_cons_of_mem r hx))]

theorem flipRanks_flipRanks (l : List (List Char)) :
    flipRanks (flipRanks l) = l := by
  simp [flipRanks, List.map_reverse, List.reverse_reverse, List.map_map,
    Function.comp_def]

theorem flipRanks_ne_nil (l : List (List Char)) (h : l ≠ []) :
    flipRanks l ≠ [] := by
  simp only [flipRanks, ne_eq, List.map_eq_nil_iff, List.reverse_eq_nil_iff]
  exact h

theorem noslash_of_mem_flipRanks (l : List (List Char))
    (hs : ∀ s ∈ l, '/' ∉ s) : ∀ r ∈ flipRanks l, '/' ∉ r := by
  intro r hr
  simp only [flipRanks, List.mem_map, List.mem_reverse] at hr
  obtain ⟨s, hsl, rfl⟩ := hr
  intro hmem
  exact hs s hsl (List.mem_reverse.mp hmem)

theorem flip_fen_flip_fen (fen : String) : flip_fen (flip_fen fen) = fen := by
  obtain ⟨d⟩ := fen
  have h1 : splitSlash (joinSlash (flipRanks (splitSlash d)))
      = flipRanks (splitSlash d) :=
    splitSlash_joinSlash _ (flipRanks_ne_nil _ (splitSlash_ne_nil d))
      (noslash_of_mem_flipRanks _ (noslash_of_mem_splitSlash d))
  show String.mk (joinSlash (flipRanks
      (splitSlash (joinSlash (flipRanks (splitSlash d)))))) = String.mk d
  rw [h1, flipRanks_flipRanks, joinSlash_splitSlash]

/-- C6: the 180-degree rotation of a placement (reverse the rank order and
each rank string) is an involution: for every well-formed 8x8 placement p,
flipping twice returns p. -/
theorem flip_fen_involution (p : String) (_h : wellFormedPlacement p = true) :
    flip_fen (flip_fen p) = p :=
  flip_fen_flip_fen p

/-- Witness for C6 at a concrete well-formed 8x8 placement. -/
theorem flip_fen_involution_w :
    wellFormedPlacement samplePlacement = true ∧
      flip_fen (flip_fen samplePlacement) = samplePlacement :=
  ⟨by decide, flip_fen_involution samplePlacement (by decide)⟩

/-- C4: orientation detection returns (normal, w) when the bottom rank has
strictly more uppercase than lowercase letters, (flipped, b) when strictly
more lowercase, and on a tie returns (flipped, b) exactly when the bottom
rank contains one of the characters r, k, q; the function is total, so it
never raises and every malformed input still lands in one of these cases. -/
theorem detect_orientation_cases (fen : String) :
    (countBlack (bottomRank fen) < countWhite (bottomRank fen) →
      detect_board_orientation fen = ("normal", "w")) ∧
    (countWhite (bottomRank fen) < countBlack (bottomRank fen) →
      detect_board_orientation fen = ("flipped", "b")) ∧
    (countWhite (bottomRank fen) = countBlack (bottomRank fen) →
      hasBlackMajor (bottomRank fen) = true →
      detect_board_orientation fen = ("flipped", "b")) ∧
    (countWhite (bottomRank fen) = countBlack (bottomRank fen) →
      hasBlackMajor (bottomRank fen) = false →
      detect_board_orientation fen = ("normal", "w")) := by
  have hshow : detect_board_orientation fen =
      (if countBlack (bottomRank fen) < countWhite (bottomRank fen)
         then ("normal", "w")
       else if countWhite (bottomRank fen) < countBlack (bottomRank fen)
         then ("flipped", "b")
       else if hasBlackMajor (bottomRank fen) then ("flipped", "b")
       else ("normal", "w")) := rfl
  refine ⟨fun h1 => ?_, fun h1 => ?_, fun h1 h2 => ?_, fun h1 h2 => ?_⟩
  · rw [hshow, if_pos h1]
  · rw [hshow, if_neg (by omega), if_pos h1]
  · rw [hshow, if_neg (by omega), if_neg (by omega), if_pos h2]
  · rw [hshow, if_neg (by omega), if_neg (by omega),
      if_neg (by simp only [h2]; exact Bool.false_ne_true)]

/-- Witness for C4: the sample placement has a majority-white bottom rank
and is detected as normal orientation, white to move. -/
theorem detect_orientation_cases_w :
    detect_board_orientation samplePlacement = ("normal", "w") :=
  (detect_orientation_cases samplePlacement).1 (by decide)

/-! ## Helper lemmas for evaluating the geometry mapping on rationals -/

theorem pyTrunc_intCast (n : ℤ) : pyTrunc (n : ℚ) = n := by
  simp [pyTrunc, Rat.num_intCast, Rat.den_intCast, Int.tdiv_one]

theorem pyTrunc_eq_of_eq_intCast {q : ℚ} {n : ℤ} (h : q = (n : ℚ)) :
    pyTrunc q = n := h ▸ pyTrunc_intCast n

theorem squareEval_e4 :
    square_to_coordinates "e4" (0, 0, 800, 800) = Except.ok (some (450, 450)) := by
  have hdata : "e4".data = ['e', '4'] := rfl
  have hint : pyIntChar '4' = some 4 := by decide
  have hfile : (('e'.toNat : Int) - ('a'.toNat : Int)) = 4 := by decide
  simp only [square_to_coordinates, hdata, hint, hfile, Except.ok.injEq,
    Option.some.injEq, Prod.mk.injEq]
  refine ⟨?_, ?_⟩ <;> exact pyTrunc_eq_of_eq_intCast (by push_cast; norm_num)

theorem squareEval_a9 :
    square_to_coordinates "a9" (0, 0, 800, 800) = Except.ok (some (50, -50)) := by
  have hdata : "a9".data = ['a', '9'] := rfl
  have hint : pyIntChar '9' = some 9 := by decide
  have hfile : (('a'.toNat : Int) - ('a'.toNat : Int)) = 0 := by decide
  simp only [square_to_coordinates, hdata, hint, hfile, Except.ok.injEq,
    Option.some.injEq, Prod.mk.injEq]
  refine ⟨?_, ?_⟩ <;> exact pyTrunc_eq_of_eq_intCast (by push_cast; norm_num)

theorem squareEval_z5 :
    square_to_coordinates "z5" (0, 0, 800, 800) = Except.ok (some (2550, 350)) := by
  have hdata : "z5".data = ['z', '5'] := rfl
  have hint : pyIntChar '5' = some 5 := by decide
  have hfile : (('z'.toNat : Int) - ('a'.toNat : Int)) = 25 := by decide
  simp only [square_to_coordinates, hdata, hint, hfile, Except.ok.injEq,
    Option.some.injEq, Prod.mk.injEq]
  refine ⟨?_, ?_⟩ <;> exact pyTrunc_eq_of_eq_intCast (by push_cast; norm_num)

theorem squareEval_nodigit :
    square_to_coordinates "e?" (0, 0, 800, 800) = Except.error "ValueError" := by
  have hdata : "e?".data = ['e', '?'] := rfl
  have hint : pyIntChar '?' = none := by decide
  simp only [square_to_coordinates, hdata, hint]

/-- C7 counterexample: for the square e4 on corners (0, 0, 800, 800) the
mapping does not return the pixel (350, 450) the claim states. -/
theorem square_e4_not_claimed_pixel :
    ¬ (square_to_coordinates "e4" (0, 0, 800, 800)
        = Except.ok (some (350, 450))) := by
  intro h
  rw [squareEval_e4] at h
  simp at h

/-- C7 amended: for the square e4 and corners (0, 0, 800, 800) the mapping
returns the pixel (450, 450), the truncated center obtained from
x = x0 + (file + 0.5) * squareWidth and y = y1 - (rank + 0.5) * squareHeight
with squareWidth = squareHeight = 100 (file index 4, rank index 3). -/
theorem square_e4_pixel :
    square_to_coordinates "e4" (0, 0, 800, 800) = Except.ok (some (450, 450)) ∧
    pyTrunc (0 + ((4 : ℚ) + 1/2) * ((800 - 0) / 8)) = 450 ∧
    pyTrunc (800 - ((3 : ℚ) + 1/2) * ((800 - 0) / 8)) = 450 :=
  ⟨squareEval_e4, pyTrunc_eq_of_eq_intCast (by push_cast; norm_num),
    pyTrunc_eq_of_eq_intCast (by push_cast; norm_num)⟩

/-- C8 counterexample: the square a9 has rank index 8, outside 0..7, yet the
mapping does not return a null result — it returns the extrapolated pixel
(50, -50). -/
theorem square_a9_not_null :
    ¬ (square_to_coordinates "a9" (0, 0, 800, 800) = Except.ok none) ∧
      square_to_coordinates "a9" (0, 0, 800, 800) = Except.ok (some (50, -50)) := by
  refine ⟨fun h => ?_, squareEval_a9⟩
  rw [squareEval_a9] at h
  simp at h

/-- C8 amended: only a wrong string length yields a null result; file or
rank indices outside 0..7 are not range-checked (the mapping returns an
extrapolated, possibly off-board pixel), and a non-digit rank character
raises a ValueError instead of returning null. -/
theorem square_to_coordinates_checks :
    (∀ (s : String) (corners : ℚ × ℚ × ℚ × ℚ), s.length ≠ 2 →
        square_to_coordinates s corners = Except.ok none) ∧
    square_to_coordinates "z5" (0, 0, 800, 800) = Except.ok (some (2550, 350)) ∧
    square_to_coordinates "e?" (0, 0, 800, 800) = Except.error "ValueError" := by
  refine ⟨?_, squareEval_z5, squareEval_nodigit⟩
  intro s corners h
  obtain ⟨l⟩ := s
  rcases l with _ | ⟨a, _ | ⟨b, _ | ⟨c2, t⟩⟩⟩
  · rfl
  · rfl
  · exact absurd rfl h
  · rfl

/-- Witness for C8 at the three-character square string abc. -/
theorem square_to_coordinates_checks_w :
    square_to_coordinates "abc" (0, 0, 800, 800) = Except.ok none :=
  square_to_coordinates_checks.1 "abc" (0, 0, 800, 800) (by decide)

/-! ## Evaluation normalization (C5) -/

/-- Shared: a dict of type unknown is never negated, for any active color. -/
theorem flip_unknown (active : String) (v : Option EvalVal) :
    flipDisplayEval active (.dict "unknown" v) = .ok (.dict "unknown" v) := by
  have hcp : (("unknown" : String) == "cp") = false := by decide
  have hmate : (("unknown" : String) == "mate") = false := by decide
  cases hb : active == "b" <;> simp [flipDisplayEval, hb, hcp, hmate]

/-- C5 counterexample: a ranked entry carrying only a mate-distance score is
not negated for Black — the entry normalization ignores the mate slot
entirely (entries differing only there display identically, with a null
centipawn), so no negated mate distance is ever produced. -/
theorem ranked_mate_not_negated :
    displayTopMove "b" ⟨"e2e4", none, some 3⟩
        = displayTopMove "b" ⟨"e2e4", none, some (-3)⟩ ∧
      displayTopMove "b" ⟨"e2e4", none, some 3⟩ = ("e2e4", none) :=
  ⟨rfl, rfl⟩

/-- C5 amended: for Black, the single best-evaluation has both its
centipawn-type and mate-distance-type numeric value negated, while each
ranked entry has only its centipawn score negated (a null centipawn stays
null and the mate slot is ignored); for White everything passes through
unchanged, and non-dict or unknown-typed evaluations are never negated. -/
theorem eval_flip_spec :
    (∀ n : Int, flipDisplayEval "b" (.dict "cp" (some (.num n)))
        = .ok (.dict "cp" (some (.num (-n))))) ∧
    (∀ n : Int, flipDisplayEval "b" (.dict "mate" (some (.num n)))
        = .ok (.dict "mate" (some (.num (-n))))) ∧
    (∀ ev, flipDisplayEval "w" ev = .ok ev) ∧
    (∀ t, flipDisplayEval "b" (.nondict t) = .ok (.nondict t)) ∧
    (∀ v, flipDisplayEval "b" (.dict "unknown" v) = .ok (.dict "unknown" v)) ∧
    (∀ m cp mt, displayTopMove "w" ⟨m, cp, mt⟩ = (m, cp)) ∧
    (∀ m n mt, displayTopMove "b" ⟨m, some n, mt⟩ = (m, some (-n))) ∧
    (∀ m mt, displayTopMove "b" ⟨m, none, mt⟩ = (m, none)) :=
  ⟨fun _ => rfl, fun _ => rfl, fun ev => by cases ev <;> rfl, fun _ => rfl,
    fun v => flip_unknown "b" v, fun _ _ _ => rfl, fun _ _ _ => rfl,
    fun _ _ => rfl⟩

/-! ## The repair cascade (C1) -/

/-- C1: for every placement and guessed active color the cascade submits, in
this fixed order, the full-castling candidate, the no-castling candidate,
and the opposite-color no-castling candidate, returning the first one the
validator accepts; when the validator rejects all three it fails with the
bare placement and the validator has been invoked exactly 3 times. -/
theorem repair_cascade_order (p a : String) (v : String → Bool) :
    (repair p a v).1 =
        (if v (candidateFull p a) then .accepted (candidateFull p a) a
         else if v (candidateNoCastle p a) then
           .accepted (candidateNoCastle p a) a
         else if v (candidateNoCastle p (oppositeColor a)) then
           .accepted (candidateNoCastle p (oppositeColor a)) (oppositeColor a)
         else .failure p) ∧
    (repair p a v).2 =
        (if v (candidateFull p a) then [candidateFull p a]
         else if v (candidateNoCastle p a) then
           [candidateFull p a, candidateNoCastle p a]
         else
           [candidateFull p a, candidateNoCastle p a,
             candidateNoCastle p (oppositeColor a)]) ∧
    (v (candidateFull p a) = false → v (candidateNoCastle p a) = false →
      v (candidateNoCastle p (oppositeColor a)) = false →
      (repair p a v).1 = RepairOut.failure p ∧
        ((repair p a v).2).length = 3) := by
  have e : repair p a v =
      (if v (candidateFull p a) then
        (RepairOut.accepted (candidateFull p a) a, [candidateFull p a])
       else if v (candidateNoCastle p a) then
        (RepairOut.accepted (candidateNoCastle p a) a,
          [candidateFull p a, candidateNoCastle p a])
       else if v (candidateNoCastle p (oppositeColor a)) then
        (RepairOut.accepted (candidateNoCastle p (oppositeColor a))
            (oppositeColor a),
          [candidateFull p a, candidateNoCastle p a,
            candidateNoCastle p (oppositeColor a)])
       else
        (RepairOut.failure p,
          [candidateFull p a, candidateNoCastle p a,
            candidateNoCastle p (oppositeColor a)])) := rfl
  refine ⟨?_, ?_, fun h1 h2 h3 => ?_⟩
  · rw [e]
    cases hv1 : v (candidateFull p a) <;>
      cases hv2 : v (candidateNoCastle p a) <;>
      cases hv3 : v (candidateNoCastle p (oppositeColor a)) <;>
      simp [hv1, hv2, hv3]
  · rw [e]
    cases hv1 : v (candidateFull p a) <;>
      cases hv2 : v (candidateNoCastle p a) <;>
      cases hv3 : v (candidateNoCastle p (oppositeColor a)) <;>
      simp [hv1, hv2, hv3]
  · rw [e]
    simp [h1, h2, h3]

/-- Witness for C1: a validator that rejects everything fails with the bare
placement after exactly 3 validator calls. -/
theorem repair_cascade_order_w :
    (repair samplePlacement "w" (fun _ => false)).1
        = RepairOut.failure samplePlacement ∧
      ((repair samplePlacement "w" (fun _ => false)).2).length = 3 :=
  (repair_cascade_order samplePlacement "w" (fun _ => false)).2.2 rfl rfl rfl

/-! ## Engine-query orchestration (C2, C3, C9, C10) -/

/-- C2 (violated by test.py): on an engine that accepts every call, the
test.py pipeline issues set_fen_position as its very first engine call,
before any accepting is_fen_valid check of that FEN, while the sicily.py
pipeline on the same engine validates every FEN before setting it. -/
theorem testpy_sets_before_validation :
    validatedBeforeSet (TestPy.test_move_generation samplePlacement
        samplePlacement okEngine).2 = false ∧
    (TestPy.test_move_generation samplePlacement samplePlacement okEngine).2.head?
        = some (.setCall (samplePlacement ++ " w KQkq - 0 1") true) ∧
    validatedBeforeSet (SicilyPy.test_move_generation samplePlacement
        samplePlacement "w" okEngine none).2 = true := by
  refine ⟨by decide, by decide, by decide⟩

/-- C3 counterexample: against an engine whose every call raises, the query
aborts at the first validity check — it performs no restart attempt and no
best-move fallback (the claim demands exactly one of each), and issues a
single external call in total. -/
theorem dead_engine_no_restart :
    countReinit (SicilyPy.test_move_generation samplePlacement samplePlacement
        "w" deadEngine (some deadEngine)).2 = 0 ∧
    countBestCalls (SicilyPy.test_move_generation samplePlacement samplePlacement
        "w" deadEngine (some deadEngine)).2 = 0 ∧
    ((SicilyPy.test_move_generation samplePlacement samplePlacement
        "w" deadEngine (some deadEngine)).2).length = 1 ∧
    ¬ (countReinit (SicilyPy.test_move_generation samplePlacement samplePlacement
          "w" deadEngine (some deadEngine)).2 = 1 ∧
        countBestCalls (SicilyPy.test_move_generation samplePlacement
          samplePlacement "w" deadEngine (some deadEngine)).2 = 1) := by
  refine ⟨by decide, by decide, by decide, by decide⟩

/-- C3 amended: when the initial validation, position set and liveness probe
succeed but every ranked-move request raises (on the original session and on
the restarted one) and the fallback best-move request raises too, the query
performs exactly one restart attempt — one engine construction, one position
re-set and one retried ranked request — followed by exactly one best-move
fallback, then fails; the full call trace is a fixed eight-event list, so
the external call count is the same on every run with this behavior. -/
theorem restart_then_fallback (rawFen shortFen active : String) (e e2 : Engine)
    (h1 : e.is_fen_valid (shortFen ++ " " ++ active ++ " KQkq - 0 1") = some true)
    (h2 : e.set_fen_position (shortFen ++ " " ++ active ++ " KQkq - 0 1") = true)
    (h3 : e.is_fen_valid startFenStr = some true)
    (h4 : e.get_top_moves 3 = none)
    (h5 : e2.set_fen_position (shortFen ++ " " ++ active ++ " KQkq - 0 1") = true)
    (h6 : e2.get_top_moves 3 = none)
    (h7 : e2.get_best_move = none) :
    SicilyPy.test_move_generation rawFen shortFen active e (some e2) =
      (MGOut.fail rawFen,
        [.validCall (shortFen ++ " " ++ active ++ " KQkq - 0 1") (some true),
         .setCall (shortFen ++ " " ++ active ++ " KQkq - 0 1") true,
         .validCall startFenStr (some true),
         .topCall 3 none,
         .reinit true,
         .setCall (shortFen ++ " " ++ active ++ " KQkq - 0 1") true,
         .topCall 3 none,
         .bestCall none]) ∧
    countReinit (SicilyPy.test_move_generation rawFen shortFen active e
        (some e2)).2 = 1 ∧
    countBestCalls (SicilyPy.test_move_generation rawFen shortFen active e
        (some e2)).2 = 1 := by
  have key : SicilyPy.test_move_generation rawFen shortFen active e (some e2) =
      (MGOut.fail rawFen,
        [.validCall (shortFen ++ " " ++ active ++ " KQkq - 0 1") (some true),
         .setCall (shortFen ++ " " ++ active ++ " KQkq - 0 1") true,
         .validCall startFenStr (some true),
         .topCall 3 none,
         .reinit true,
         .setCall (shortFen ++ " " ++ active ++ " KQkq - 0 1") true,
         .topCall 3 none,
         .bestCall none]) := by
    simp [SicilyPy.test_move_generation, SicilyPy.queryStage,
      SicilyPy.restartStage, SicilyPy.bestFallback, h1, h2, h3, h4, h5, h6, h7]
  refine ⟨key, ?_, ?_⟩ <;> rw [key] <;> rfl

/-- Witness for C3's amended statement with a concrete engine whose setup
calls succeed and whose move requests all raise. -/
theorem restart_then_fallback_w :
    SicilyPy.test_move_generation samplePlacement samplePlacement "b"
        failMovesEngine (some failMovesEngine) =
      (MGOut.fail samplePlacement,
        [.validCall (samplePlacement ++ " " ++ "b" ++ " KQkq - 0 1") (some true),
         .setCall (samplePlacement ++ " " ++ "b" ++ " KQkq - 0 1") true,
         .validCall startFenStr (some true),
         .topCall 3 none,
         .reinit true,
         .setCall (samplePlacement ++ " " ++ "b" ++ " KQkq - 0 1") true,
         .topCall 3 none,
         .bestCall none]) :=
  (restart_then_fallback samplePlacement samplePlacement "b" failMovesEngine
      failMovesEngine rfl rfl rfl rfl rfl rfl rfl).1

/-- C9: when the ranked request returns successfully with an empty list the
query fails immediately — the trace ends at that call, with no restart, no
best-move fallback and no evaluation request. -/
theorem empty_top_moves_fails (rawFen shortFen active : String) (e : Engine)
    (re : Option Engine)
    (h1 : e.is_fen_valid (shortFen ++ " " ++ active ++ " KQkq - 0 1") = some true)
    (h2 : e.set_fen_position (shortFen ++ " " ++ active ++ " KQkq - 0 1") = true)
    (h3 : e.is_fen_valid startFenStr = some true)
    (h4 : e.get_top_moves 3 = some []) :
    SicilyPy.test_move_generation rawFen shortFen active e re =
      (MGOut.fail rawFen,
        [.validCall (shortFen ++ " " ++ active ++ " KQkq - 0 1") (some true),
         .setCall (shortFen ++ " " ++ active ++ " KQkq - 0 1") true,
         .validCall startFenStr (some true),
         .topCall 3 (some [])]) ∧
    countReinit (SicilyPy.test_move_generation rawFen shortFen active e re).2
        = 0 ∧
    countBestCalls (SicilyPy.test_move_generation rawFen shortFen active e re).2
        = 0 ∧
    countEvalCalls (SicilyPy.test_move_generation rawFen shortFen active e re).2
        = 0 := by
  have key : SicilyPy.test_move_generation rawFen shortFen active e re =
      (MGOut.fail rawFen,
        [.validCall (shortFen ++ " " ++ active ++ " KQkq - 0 1") (some true),
         .setCall (shortFen ++ " " ++ active ++ " KQkq - 0 1") true,
         .validCall startFenStr (some true),
         .topCall 3 (some [])]) := by
    simp [SicilyPy.test_move_generation, SicilyPy.queryStage, SicilyPy.topStage,
      h1, h2, h3, h4]
  refine ⟨key, ?_, ?_, ?_⟩ <;> rw [key] <;> rfl

/-- Witness for C9 with a concrete engine returning an empty ranked list. -/
theorem empty_top_moves_fails_w :
    SicilyPy.test_move_generation samplePlacement samplePlacement "w"
        emptyTopEngine none =
      (MGOut.fail samplePlacement,
        [.validCall (samplePlacement ++ " " ++ "w" ++ " KQkq - 0 1") (some true),
         .setCall (samplePlacement ++ " " ++ "w" ++ " KQkq - 0 1") true,
         .validCall startFenStr (some true),
         .topCall 3 (some [])]) :=
  (empty_top_moves_fails samplePlacement samplePlacement "w" emptyTopEngine none
      rfl rfl rfl rfl).1

/-- C10: when the evaluation request raises after a non-empty ranked list
was obtained, the query still returns success with the first ranked move,
displaying the placeholder evaluation of type unknown and value N/A. -/
theorem eval_raise_keeps_success (rawFen shortFen active : String) (e : Engine)
    (re : Option Engine) (md : MoveData) (rest : List MoveData)
    (h1 : e.is_fen_valid (shortFen ++ " " ++ active ++ " KQkq - 0 1") = some true)
    (h2 : e.set_fen_position (shortFen ++ " " ++ active ++ " KQkq - 0 1") = true)
    (h3 : e.is_fen_valid startFenStr = some true)
    (h4 : e.get_top_moves 3 = some (md :: rest))
    (h5 : e.get_evaluation = none) :
    (SicilyPy.test_move_generation rawFen shortFen active e re).1 =
      MGOut.okFull shortFen md.move (Eval.dict "unknown" (some (.str "N/A")))
        ((md :: rest).map (displayTopMove active)) := by
  simp [SicilyPy.test_move_generation, SicilyPy.queryStage, SicilyPy.topStage,
    SicilyPy.evalStage, h1, h2, h3, h4, h5, flip_unknown]

/-- Witness for C10 with a concrete engine raising on get_evaluation. -/
theorem eval_raise_keeps_success_w :
    (SicilyPy.test_move_generation samplePlacement samplePlacement "b"
        noEvalEngine none).1 =
      MGOut.okFull samplePlacement "e7e5"
        (Eval.dict "unknown" (some (.str "N/A")))
        ([⟨"e7e5", some (-12), none⟩, ⟨"g8f6", none, some 2⟩].map
          (displayTopMove "b")) :=
  eval_raise_keeps_success samplePlacement samplePlacement "b" noEvalEngine none
    ⟨"e7e5", some (-12), none⟩ [⟨"g8f6", none, some 2⟩] rfl rfl rfl rfl rfl

end SicilyBot
